import Mathlib

/-!
Verification of `src/projects/Assignment 1/src/main.cpp` (CG-Assignment-1).

The file shallowly embeds the parts of `main.cpp` that the specification
talks about: the render-group sort comparator, the per-frame draw pass over
the sorted render group, the game-loop step sequence, the transform and
behaviour update passes, the initialization control flow, the window setup,
and the two integer index counters (`frameIx`, `selectedVao`).

Pointers (`Shader::sptr`, `ShaderMaterial::sptr`) are modelled as natural
number identities; `nullptr` is `Option.none` where the code compares
against it.  Machine `int` values that the code keeps in range are modelled
as `Int`.
-/

namespace CGA1

/-- The fields of a renderable entity that the render loop reads: the
comparator at main.cpp:823-837 reads `Material->RenderLayer`,
`Material->Shader` and the `Material` pointer itself, and the draw loop at
main.cpp:844-858 additionally reads `Mesh`.  `RenderLayer` is a C++ `int`,
the other three are pointers. -/
structure RendererComponent where
  renderLayer : Int
  shaderPtr : Nat
  materialPtr : Nat
  meshPtr : Nat
deriving DecidableEq, Repr

/-- A default renderable, used only as the `List.getD` fallback. -/
def dfltRC : RendererComponent := ⟨0, 0, 0, 0⟩

/-- The comparator passed to `renderGroup.sort<RendererComponent>` at
main.cpp:823-837: render layer first (ascending), then shader pointer,
then material pointer, `false` on full equality. -/
def rendererCompare (l r : RendererComponent) : Bool :=
  if l.renderLayer < r.renderLayer then true
  else if l.renderLayer > r.renderLayer then false
  else if l.shaderPtr < r.shaderPtr then true
  else if l.shaderPtr > r.shaderPtr then false
  else if l.materialPtr < r.materialPtr then true
  else if l.materialPtr > r.materialPtr then false
  else false

/-- The three sort keys of a renderable, in comparison order. -/
def renderKeys (rc : RendererComponent) : Int × Nat × Nat :=
  (rc.renderLayer, rc.shaderPtr, rc.materialPtr)

/-- Lexicographic strict order on the three sort keys. -/
def keysLexLt (l r : RendererComponent) : Prop :=
  l.renderLayer < r.renderLayer ∨
    (l.renderLayer = r.renderLayer ∧
      (l.shaderPtr < r.shaderPtr ∨
        (l.shaderPtr = r.shaderPtr ∧ l.materialPtr < r.materialPtr)))

instance : DecidablePred (fun p : RendererComponent × RendererComponent => keysLexLt p.1 p.2) :=
  fun _ => by unfold keysLexLt; infer_instance

theorem rendererCompare_iff_lex (l r : RendererComponent) :
    rendererCompare l r = true ↔ keysLexLt l r := by
  unfold rendererCompare keysLexLt
  split_ifs with h1 h2 h3 h4 h5 h6
  · simp only [true_iff]; exact Or.inl h1
  · simp only [false_iff]
    intro hh
    rcases hh with hh | ⟨he, hh | ⟨he2, hh⟩⟩ <;> omega
  · simp only [true_iff]
    exact Or.inr ⟨by omega, Or.inl h3⟩
  · simp only [false_iff]
    intro hh
    rcases hh with hh | ⟨he, hh | ⟨he2, hh⟩⟩ <;> omega
  · simp only [true_iff]
    exact Or.inr ⟨by omega, Or.inr ⟨by omega, h5⟩⟩
  · simp only [false_iff]
    intro hh
    rcases hh with hh | ⟨he, hh | ⟨he2, hh⟩⟩ <;> omega
  · simp only [false_iff]
    intro hh
    rcases hh with hh | ⟨he, hh | ⟨he2, hh⟩⟩ <;> omega

theorem rendererCompare_asymm (l r : RendererComponent)
    (h : rendererCompare l r = true) : rendererCompare r l = false := by
  rw [rendererCompare_iff_lex] at h
  rcases hb : rendererCompare r l with _ | _
  · rfl
  · exfalso
    rw [rendererCompare_iff_lex] at hb
    unfold keysLexLt at h hb
    rcases h with h | ⟨e1, h | ⟨e2, h⟩⟩ <;>
      rcases hb with hb | ⟨f1, hb | ⟨f2, hb⟩⟩ <;> omega

theorem rendererCompare_equiv_iff (l r : RendererComponent) :
    (rendererCompare l r = false ∧ rendererCompare r l = false) ↔
      renderKeys l = renderKeys r := by
  constructor
  · intro ⟨h1, h2⟩
    have n1 : ¬ keysLexLt l r := by
      rw [← rendererCompare_iff_lex]; simp [h1]
    have n2 : ¬ keysLexLt r l := by
      rw [← rendererCompare_iff_lex]; simp [h2]
    unfold keysLexLt at n1 n2
    have e1 : l.renderLayer = r.renderLayer := by
      rcases lt_trichotomy l.renderLayer r.renderLayer with hlt | he | hgt
      · exact absurd (Or.inl hlt) n1
      · exact he
      · exact absurd (Or.inl hgt) n2
    have e2 : l.shaderPtr = r.shaderPtr := by
      rcases lt_trichotomy l.shaderPtr r.shaderPtr with hlt | he | hgt
      · exact absurd (Or.inr ⟨e1, Or.inl hlt⟩) n1
      · exact he
      · exact absurd (Or.inr ⟨e1.symm, Or.inl hgt⟩) n2
    have e3 : l.materialPtr = r.materialPtr := by
      rcases lt_trichotomy l.materialPtr r.materialPtr with hlt | he | hgt
      · exact absurd (Or.inr ⟨e1, Or.inr ⟨e2, hlt⟩⟩) n1
      · exact he
      · exact absurd (Or.inr ⟨e1.symm, Or.inr ⟨e2.symm, hgt⟩⟩) n2
    simp [renderKeys, e1, e2, e3]
  · intro h
    unfold renderKeys at h
    simp only [Prod.mk.injEq] at h
    obtain ⟨e1, e2, e3⟩ := h
    constructor <;>
      · rcases hb : rendererCompare _ _ with _ | _
        · rfl
        · exfalso
          rw [rendererCompare_iff_lex] at hb
          unfold keysLexLt at hb
          rcases hb with hb | ⟨f1, hb | ⟨f2, hb⟩⟩ <;> omega

/-- Modelled from the spec: `renderGroup.sort` delegates the actual
reordering to the entity-component framework, whose sources are not under
`src/`; the spec describes the pass as "a stable sort by three
integer/pointer keys".  We model it as insertion sort that inserts each
element after every already-placed element that strictly precedes it under
`rendererCompare`, which is the canonical stable comparison sort. -/
def sortInsert (x : RendererComponent) :
    List RendererComponent → List RendererComponent
  | [] => [x]
  | y :: ys => if rendererCompare y x then y :: sortInsert x ys else x :: y :: ys

/-- Modelled from the spec: the per-frame stable sort of the render group
by `rendererCompare` (see `sortInsert`). -/
def sortRenderers : List RendererComponent → List RendererComponent
  | [] => []
  | x :: xs => sortInsert x (sortRenderers xs)

theorem rendererCompare_false_trans (a b c : RendererComponent)
    (h1 : rendererCompare b a = false) (h2 : rendererCompare c b = false) :
    rendererCompare c a = false := by
  rcases hb : rendererCompare c a with _ | _
  · rfl
  · exfalso
    rw [rendererCompare_iff_lex] at hb
    have n1 : ¬ keysLexLt b a := by rw [← rendererCompare_iff_lex]; simp [h1]
    have n2 : ¬ keysLexLt c b := by rw [← rendererCompare_iff_lex]; simp [h2]
    unfold keysLexLt at hb n1 n2
    have g1 : ¬ (b.renderLayer < a.renderLayer) := fun hg => n1 (Or.inl hg)
    have g2 : ¬ (c.renderLayer < b.renderLayer) := fun hg => n2 (Or.inl hg)
    rcases hb with hb | ⟨eb, hb⟩
    · omega
    · have eba : b.renderLayer = a.renderLayer := by omega
      have ecb : c.renderLayer = b.renderLayer := by omega
      have g3 : ¬ (b.shaderPtr < a.shaderPtr) := fun hg => n1 (Or.inr ⟨eba, Or.inl hg⟩)
      have g4 : ¬ (c.shaderPtr < b.shaderPtr) := fun hg => n2 (Or.inr ⟨ecb, Or.inl hg⟩)
      rcases hb with hb | ⟨es, hb⟩
      · omega
      · have sba : b.shaderPtr = a.shaderPtr := by omega
        have scb : c.shaderPtr = b.shaderPtr := by omega
        have g5 : ¬ (b.materialPtr < a.materialPtr) :=
          fun hg => n1 (Or.inr ⟨eba, Or.inr ⟨sba, hg⟩⟩)
        have g6 : ¬ (c.materialPtr < b.materialPtr) :=
          fun hg => n2 (Or.inr ⟨ecb, Or.inr ⟨scb, hg⟩⟩)
        omega

theorem mem_sortInsert (x z : RendererComponent) (ys : List RendererComponent) :
    z ∈ sortInsert x ys ↔ z = x ∨ z ∈ ys := by
  induction ys with
  | nil => simp [sortInsert]
  | cons y ys ih =>
    unfold sortInsert
    rcases h : rendererCompare y x with _ | _ <;> simp [ih] <;> tauto

theorem sortInsert_pairwise (x : RendererComponent)
    (ys : List RendererComponent)
    (h : ys.Pairwise (fun a b => rendererCompare b a = false)) :
    (sortInsert x ys).Pairwise (fun a b => rendererCompare b a = false) := by
  induction ys with
  | nil => simpa [sortInsert] using List.pairwise_singleton _ x
  | cons y ys ih =>
    rcases List.pairwise_cons.mp h with ⟨hy, hys⟩
    unfold sortInsert
    rcases hc : rendererCompare y x with _ | _
    · simp only [Bool.false_eq_true, if_false]
      refine List.pairwise_cons.mpr ⟨?_, h⟩
      intro z hz
      rcases List.mem_cons.mp hz with rfl | hz
      · exact hc
      · exact rendererCompare_false_trans x y z hc (hy z hz)
    · simp only [if_true]
      refine List.pairwise_cons.mpr ⟨?_, ih hys⟩
      intro z hz
      rcases (mem_sortInsert x z ys).mp hz with rfl | hz
      · exact rendererCompare_asymm y _ hc
      · exact hy z hz

theorem sortRenderers_pairwise (l : List RendererComponent) :
    (sortRenderers l).Pairwise (fun a b => rendererCompare b a = false) := by
  induction l with
  | nil => simp [sortRenderers]
  | cons x xs ih => exact sortInsert_pairwise x _ ih

theorem sortInsert_perm (x : RendererComponent) (ys : List RendererComponent) :
    (sortInsert x ys).Perm (x :: ys) := by
  induction ys with
  | nil => simp [sortInsert]
  | cons y ys ih =>
    unfold sortInsert
    rcases hc : rendererCompare y x with _ | _
    · simp
    · simp only [if_true]
      exact (List.Perm.cons y ih).trans (List.Perm.swap x y ys)

theorem sortRenderers_perm (l : List RendererComponent) :
    (sortRenderers l).Perm l := by
  induction l with
  | nil => simp [sortRenderers]
  | cons x xs ih =>
    exact (sortInsert_perm x (sortRenderers xs)).trans (List.Perm.cons x ih)

theorem filter_key_sortInsert (k : Int × Nat × Nat) (x : RendererComponent)
    (ys : List RendererComponent) :
    (sortInsert x ys).filter (fun z => decide (renderKeys z = k)) =
      (x :: ys).filter (fun z => decide (renderKeys z = k)) := by
  induction ys with
  | nil => rfl
  | cons y ys ih =>
    unfold sortInsert
    rcases hc : rendererCompare y x with _ | _
    · rfl
    · by_cases hx : renderKeys x = k
      · by_cases hy : renderKeys y = k
        · exfalso
          have hf : rendererCompare y x = false :=
            ((rendererCompare_equiv_iff y x).mpr (hy.trans hx.symm)).1
          exact Bool.noConfusion (hc.symm.trans hf)
        · simp only [if_true, List.filter_cons, ih]
          simp [hx, hy]
      · by_cases hy : renderKeys y = k <;>
          · simp only [if_true, List.filter_cons, ih]
            simp [hx, hy]

theorem filter_key_sortRenderers (k : Int × Nat × Nat) (l : List RendererComponent) :
    (sortRenderers l).filter (fun z => decide (renderKeys z = k)) =
      l.filter (fun z => decide (renderKeys z = k)) := by
  induction l with
  | nil => rfl
  | cons x xs ih =>
    show (sortInsert x (sortRenderers xs)).filter _ = _
    rw [filter_key_sortInsert]
    simp only [List.filter_cons, ih]

/-- **C1** — The render-group comparator orders by ascending render layer,
then shader pointer, then material pointer; it reports strict-weak-order
equivalence exactly when all three keys are equal; and in the sorted render
group every later entry has a render layer at least that of every earlier
entry, so higher layers are drawn after lower ones. -/
theorem renderGroup_comparator_spec :
    (∀ l r : RendererComponent, (rendererCompare l r = true ↔ keysLexLt l r)) ∧
    (∀ l r : RendererComponent,
      ((rendererCompare l r = false ∧ rendererCompare r l = false) ↔
        renderKeys l = renderKeys r)) ∧
    (∀ l : List RendererComponent,
      (sortRenderers l).Pairwise (fun a b => a.renderLayer ≤ b.renderLayer)) := by
  refine ⟨rendererCompare_iff_lex, rendererCompare_equiv_iff, ?_⟩
  intro l
  refine List.Pairwise.imp ?_ (sortRenderers_pairwise l)
  intro a b hba
  have : ¬ keysLexLt b a := by rw [← rendererCompare_iff_lex]; simp [hba]
  unfold keysLexLt at this
  have g1 : ¬ (b.renderLayer < a.renderLayer) := fun hg => this (Or.inl hg)
  omega

/-- **C3** — The per-frame render-group sort is a stable sort on the three
keys: it permutes the render group, the subsequence of renderables carrying
any fixed key triple is unchanged, and in particular any two renderables
with all three keys equal that appear in order `[a, b]` still appear in
that relative order after sorting. -/
theorem renderGroup_sort_is_stable :
    (∀ l : List RendererComponent, (sortRenderers l).Perm l) ∧
    (∀ (l : List RendererComponent) (k : Int × Nat × Nat),
      (sortRenderers l).filter (fun z => decide (renderKeys z = k)) =
        l.filter (fun z => decide (renderKeys z = k))) ∧
    (∀ (a b : RendererComponent) (l : List RendererComponent),
      renderKeys a = renderKeys b → [a, b].Sublist l →
        [a, b].Sublist (sortRenderers l)) := by
  refine ⟨sortRenderers_perm, fun l k => filter_key_sortRenderers k l, ?_⟩
  intro a b l hk hs
  have h2 := hs.filter (fun z => decide (renderKeys z = renderKeys a))
  have h1 : [a, b].filter (fun z => decide (renderKeys z = renderKeys a)) = [a, b] := by
    simp [hk.symm]
  rw [h1, ← filter_key_sortRenderers (renderKeys a) l] at h2
  exact h2.trans (List.filter_sublist _)

/-- **C3 witness** — the stability conclusion at a concrete render group:
two equal-keyed renderables with different meshes stay in input order. -/
theorem renderGroup_sort_is_stable_witness :
    renderKeys ⟨0, 1, 1, 5⟩ = renderKeys ⟨0, 1, 1, 6⟩ ∧
    ([⟨0, 1, 1, 5⟩, ⟨0, 1, 1, 6⟩] : List RendererComponent).Sublist
      [⟨7, 2, 2, 9⟩, ⟨0, 1, 1, 5⟩, ⟨0, 1, 1, 6⟩] ∧
    ([⟨0, 1, 1, 5⟩, ⟨0, 1, 1, 6⟩] : List RendererComponent).Sublist
      (sortRenderers [⟨7, 2, 2, 9⟩, ⟨0, 1, 1, 5⟩, ⟨0, 1, 1, 6⟩]) :=
  ⟨by decide, by decide,
    renderGroup_sort_is_stable.2.2 ⟨0, 1, 1, 5⟩ ⟨0, 1, 1, 6⟩
      [⟨7, 2, 2, 9⟩, ⟨0, 1, 1, 5⟩, ⟨0, 1, 1, 6⟩] (by decide) (by decide)⟩

/-- The once-per-frame uniforms uploaded by `SetupShaderForFrame`
(main.cpp:212-220). -/
def perFrameUniforms : List String :=
  ["u_View", "u_ViewProjection", "u_SkyboxMatrix", "u_CamPos"]

/-- The two locals of the draw pass (main.cpp:840-841):
`Shader::sptr current = nullptr; ShaderMaterial::sptr currentMat = nullptr`. -/
structure DrawState where
  current : Option Nat
  currentMat : Option Nat
deriving DecidableEq, Repr

/-- What the body of the `renderGroup.each` lambda (main.cpp:844-858) does
for one renderable: whether it re-bound the shader and uploaded the
per-frame uniforms, which uniforms those were, whether it applied the
material, and how many times it called `RenderVAO`. -/
structure DrawActions where
  setupShader : Bool
  uniformsSet : List String
  applyMaterial : Bool
  renderVAOCalls : Nat
deriving DecidableEq, Repr

/-- A default action record, used only as the `List.getD` fallback. -/
def dfltDA : DrawActions := ⟨false, [], false, 0⟩

/-- One iteration of the `renderGroup.each` draw lambda (main.cpp:844-858):
shader setup happens iff `current != renderer.Material->Shader`, material
application iff `currentMat != renderer.Material`, then one `RenderVAO`. -/
def drawOne (st : DrawState) (r : RendererComponent) : DrawState × DrawActions :=
  let doSetup : Bool := st.current ≠ some r.shaderPtr
  let st1 : DrawState := if doSetup then { st with current := some r.shaderPtr } else st
  let doApply : Bool := st1.currentMat ≠ some r.materialPtr
  let st2 : DrawState := if doApply then { st1 with currentMat := some r.materialPtr } else st1
  (st2, ⟨doSetup, if doSetup then perFrameUniforms else [], doApply, 1⟩)

/-- The draw pass from an arbitrary starting state. -/
def drawFrom (st : DrawState) : List RendererComponent → List DrawActions
  | [] => []
  | r :: rest => (drawOne st r).2 :: drawFrom (drawOne st r).1 rest

/-- The per-frame draw pass over the sorted render group, starting from
`current = nullptr`, `currentMat = nullptr` (main.cpp:839-858). -/
def drawPass (l : List RendererComponent) : List DrawActions :=
  drawFrom ⟨none, none⟩ l

theorem drawOne_fst (st : DrawState) (r : RendererComponent) :
    (drawOne st r).1 = ⟨some r.shaderPtr, some r.materialPtr⟩ := by
  unfold drawOne
  rcases st with ⟨c, m⟩
  by_cases h1 : c = some r.shaderPtr <;> by_cases h2 : m = some r.materialPtr <;>
    simp [h1, h2]

theorem drawOne_snd (st : DrawState) (r : RendererComponent) :
    (drawOne st r).2 =
      ⟨decide (st.current ≠ some r.shaderPtr),
       if st.current ≠ some r.shaderPtr then perFrameUniforms else [],
       decide (st.currentMat ≠ some r.materialPtr), 1⟩ := by
  unfold drawOne
  rcases st with ⟨c, m⟩
  by_cases h1 : c = some r.shaderPtr <;> by_cases h2 : m = some r.materialPtr <;>
    simp [h1, h2]

theorem drawFrom_length (st : DrawState) (l : List RendererComponent) :
    (drawFrom st l).length = l.length := by
  induction l generalizing st with
  | nil => rfl
  | cons r rest ih => simp [drawFrom, ih]

theorem drawFrom_getD (st : DrawState) (l : List RendererComponent)
    (i : Nat) (h : i < l.length) :
    (((drawFrom st l).getD i dfltDA).setupShader = true ↔
      (if i = 0 then st.current ≠ some ((l.getD 0 dfltRC).shaderPtr)
       else (l.getD i dfltRC).shaderPtr ≠ (l.getD (i - 1) dfltRC).shaderPtr)) ∧
    (((drawFrom st l).getD i dfltDA).applyMaterial = true ↔
      (if i = 0 then st.currentMat ≠ some ((l.getD 0 dfltRC).materialPtr)
       else (l.getD i dfltRC).materialPtr ≠ (l.getD (i - 1) dfltRC).materialPtr)) ∧
    ((drawFrom st l).getD i dfltDA).uniformsSet =
      (if ((drawFrom st l).getD i dfltDA).setupShader then perFrameUniforms else []) ∧
    ((drawFrom st l).getD i dfltDA).renderVAOCalls = 1 := by
  induction l generalizing st i with
  | nil => exact absurd h (by simp)
  | cons r rest ih =>
    rcases i with _ | j
    · simp only [drawFrom, List.getD_cons_zero, drawOne_snd]
      refine ⟨by simp, by simp, ?_, by trivial⟩
      by_cases hc : st.current = some r.shaderPtr <;> simp [hc]
    · have hj : j < rest.length := by simpa using h
      simp only [drawFrom, List.getD_cons_succ, drawOne_fst]
      have hrec := ih ⟨some r.shaderPtr, some r.materialPtr⟩ j hj
      rcases j with _ | j2
      · refine ⟨?_, ?_, hrec.2.2.1, hrec.2.2.2⟩
        · rw [hrec.1]
          simp [eq_comm]
        · rw [hrec.2.1]
          simp [eq_comm]
      · refine ⟨?_, ?_, hrec.2.2.1, hrec.2.2.2⟩
        · rw [hrec.1]
          simp
        · rw [hrec.2.1]
          simp

/-- **C2** — In the draw pass over the sorted render group, the shader is
bound and the once-per-frame uniforms `u_View`, `u_ViewProjection`,
`u_SkyboxMatrix`, `u_CamPos` are uploaded for the renderable at position
`i` iff it is first or its material's shader differs from the previous
renderable's; the material is applied iff it is first or its material
pointer differs from the previous renderable's; and `RenderVAO` is called
exactly once for every renderable. -/
theorem drawPass_state_changes (l : List RendererComponent) (i : Nat)
    (h : i < l.length) :
    (((drawPass l).getD i dfltDA).setupShader = true ↔
      (i = 0 ∨ (l.getD i dfltRC).shaderPtr ≠ (l.getD (i - 1) dfltRC).shaderPtr)) ∧
    (((drawPass l).getD i dfltDA).applyMaterial = true ↔
      (i = 0 ∨ (l.getD i dfltRC).materialPtr ≠ (l.getD (i - 1) dfltRC).materialPtr)) ∧
    ((drawPass l).getD i dfltDA).uniformsSet =
      (if ((drawPass l).getD i dfltDA).setupShader then perFrameUniforms else []) ∧
    ((drawPass l).getD i dfltDA).renderVAOCalls = 1 := by
  have hmain := drawFrom_getD ⟨none, none⟩ l i h
  unfold drawPass
  refine ⟨?_, ?_, hmain.2.2.1, hmain.2.2.2⟩
  · rw [hmain.1]
    rcases i with _ | j <;> simp
  · rw [hmain.2.1]
    rcases i with _ | j <;> simp

/-- **C2 witness** — the draw pass evaluated at position 1 of a concrete
sorted group whose second entry shares the first entry's shader but not
its material. -/
theorem drawPass_state_changes_witness :
    1 < ([⟨0, 1, 1, 5⟩, ⟨0, 1, 2, 6⟩] : List RendererComponent).length ∧
    ((((drawPass [⟨0, 1, 1, 5⟩, ⟨0, 1, 2, 6⟩]).getD 1 dfltDA).setupShader = true ↔
      (1 = 0 ∨ (([⟨0, 1, 1, 5⟩, ⟨0, 1, 2, 6⟩] :
          List RendererComponent).getD 1 dfltRC).shaderPtr ≠
        (([⟨0, 1, 1, 5⟩, ⟨0, 1, 2, 6⟩] :
          List RendererComponent).getD 0 dfltRC).shaderPtr)) ∧
    ((((drawPass [⟨0, 1, 1, 5⟩, ⟨0, 1, 2, 6⟩]).getD 1 dfltDA).applyMaterial = true ↔
      (1 = 0 ∨ (([⟨0, 1, 1, 5⟩, ⟨0, 1, 2, 6⟩] :
          List RendererComponent).getD 1 dfltRC).materialPtr ≠
        (([⟨0, 1, 1, 5⟩, ⟨0, 1, 2, 6⟩] :
          List RendererComponent).getD 0 dfltRC).materialPtr)) ∧
    ((drawPass [⟨0, 1, 1, 5⟩, ⟨0, 1, 2, 6⟩]).getD 1 dfltDA).uniformsSet =
      (if ((drawPass [⟨0, 1, 1, 5⟩, ⟨0, 1, 2, 6⟩]).getD 1 dfltDA).setupShader
        then perFrameUniforms else []) ∧
    ((drawPass [⟨0, 1, 1, 5⟩, ⟨0, 1, 2, 6⟩]).getD 1 dfltDA).renderVAOCalls = 1)) :=
  ⟨by decide, drawPass_state_changes [⟨0, 1, 1, 5⟩, ⟨0, 1, 2, 6⟩] 1 (by decide)⟩

/-- The distinguishable actions of one iteration of the game loop
(main.cpp:769-866), in source order. -/
inductive LoopStep
  | pollEvents
  | updateTiming
  | updateFpsTracker
  | pollKeyWatchers
  | runBehaviours
  | clearScreen
  | updateWorldTransforms
  | sortRenderGroup
  | drawRenderGroup
  | renderImGui
  | scenePoll
  | swapBuffers
deriving DecidableEq, Repr, BEq

/-- One iteration of `while (!glfwWindowShouldClose(window))`
(main.cpp:769-866): the loop body is straight-line; only the key-watcher
polling is guarded, by `!ImGui::IsAnyWindowFocused()` (main.cpp:785). -/
def loopIteration (imguiFocused : Bool) : List LoopStep :=
  [.pollEvents, .updateTiming, .updateFpsTracker]
    ++ (if imguiFocused then [] else [.pollKeyWatchers])
    ++ [.runBehaviours, .clearScreen, .updateWorldTransforms,
        .sortRenderGroup, .drawRenderGroup, .renderImGui, .scenePoll,
        .swapBuffers]

/-- The six steps the spec names, in the claimed order. -/
def claimedSteps : List LoopStep :=
  [.pollEvents, .runBehaviours, .updateWorldTransforms, .sortRenderGroup,
   .drawRenderGroup, .renderImGui, .swapBuffers]

/-- **C4** — In every iteration of the game loop (whatever the GUI focus
state), the steps poll-input, run-behaviours, recompute-world-transforms,
sort-renderables, draw-renderables, draw-GUI, swap-buffers each occur
exactly once and in exactly that order: restricting the iteration's step
sequence to those steps yields them in the claimed order. -/
theorem gameLoop_step_order (imguiFocused : Bool) :
    (loopIteration imguiFocused).filter (fun s => claimedSteps.contains s) =
      claimedSteps ∧
    ∀ s ∈ claimedSteps, (loopIteration imguiFocused).count s = 1 := by
  cases imguiFocused <;>
    exact ⟨by decide, by intro s hs; fin_cases hs <;> decide⟩

/-- **C4 witness** — the step-order property at a concrete focus state. -/
theorem gameLoop_step_order_witness :
    (loopIteration false).filter (fun s => claimedSteps.contains s) =
      claimedSteps ∧
    ∀ s ∈ claimedSteps, (loopIteration false).count s = 1 :=
  gameLoop_step_order false

/-- The `Transform` component as the world-matrix pass reads it: only the
weak parent entity reference matters for update ordering questions; the
local TRS fields and the cached world matrix do not affect which entities
the pass visits. -/
structure TransformC where
  parent : Option Nat
deriving DecidableEq, Repr

/-- The world-matrix update pass (main.cpp:810-813):
`scene->Registry().view<Transform>().each(... t.UpdateWorldMatrix() ...)` —
one call per registry entry, in registry iteration order; returns the
entities in call order. -/
def updateWorldMatrixPass (reg : List (Nat × TransformC)) : List Nat :=
  reg.map (fun et => et.1)

/-- **C5** — Every frame calls `UpdateWorldMatrix` exactly once per
`Transform` in the registry (for a registry with distinct entities), in
plain registry iteration order; and that order imposes no parent/child
dependency: there is a registry in which a child (an entity whose
transform's parent is another registry entity) is updated strictly before
its parent. -/
theorem transform_update_once_unordered :
    (∀ reg : List (Nat × TransformC), (reg.map Prod.fst).Nodup →
      ∀ e ∈ reg.map Prod.fst, (updateWorldMatrixPass reg).count e = 1) ∧
    (∃ (reg : List (Nat × TransformC)) (c p : Nat) (t : TransformC),
      t.parent = some p ∧ (c, t) ∈ reg ∧ p ∈ reg.map Prod.fst ∧
      (updateWorldMatrixPass reg).indexOf c <
        (updateWorldMatrixPass reg).indexOf p) := by
  constructor
  · intro reg hnd e he
    exact List.count_eq_one_of_mem hnd he
  · exact ⟨[(1, ⟨some 2⟩), (2, ⟨none⟩)], 1, 2, ⟨some 2⟩, rfl, by decide,
      by decide, by decide⟩

/-- **C5 witness** — the exactly-once part applied to a concrete
two-entity registry where the child precedes the parent. -/
theorem transform_update_once_unordered_witness :
    (([(1, (⟨some 2⟩ : TransformC)), (2, ⟨none⟩)].map Prod.fst).Nodup ∧
      1 ∈ [(1, (⟨some 2⟩ : TransformC)), (2, ⟨none⟩)].map Prod.fst) ∧
    (updateWorldMatrixPass [(1, ⟨some 2⟩), (2, ⟨none⟩)]).count 1 = 1 :=
  ⟨⟨by decide, by decide⟩,
    transform_update_once_unordered.1 [(1, ⟨some 2⟩), (2, ⟨none⟩)]
      (by decide) 1 (by decide)⟩

/-- One behaviour script attached through `BehaviourBinding`: its
`Enabled` flag and an identity for the script object. -/
structure Behaviour where
  enabled : Bool
  id : Nat
deriving DecidableEq, Repr

/-- The inner loop of main.cpp:794-802: walk `binding.Behaviours` in order
and call `Update` on each behaviour whose `Enabled` is set; returns the
ids of the behaviours whose `Update` ran, in call order. -/
def updateBehaviours : List Behaviour → List Nat
  | [] => []
  | b :: rest =>
    if b.enabled then b.id :: updateBehaviours rest else updateBehaviours rest

/-- The whole behaviour pass (main.cpp:794-802): iterate every entity with
a `BehaviourBinding`; returns one `(entity, behaviour id)` per `Update`
call, in call order. -/
def behaviourPass : List (Nat × List Behaviour) → List (Nat × Nat)
  | [] => []
  | eb :: rest =>
    (updateBehaviours eb.2).map (fun i => (eb.1, i)) ++ behaviourPass rest

theorem count_updateBehaviours_notMem (i : Nat) (bs : List Behaviour)
    (h : i ∉ bs.map Behaviour.id) : (updateBehaviours bs).count i = 0 := by
  induction bs with
  | nil => rfl
  | cons b rest ih =>
    simp only [List.map_cons, List.mem_cons] at h
    push_neg at h
    unfold updateBehaviours
    rcases hb : b.enabled with _ | _
    · simpa using ih h.2
    · simp only [if_true, List.count_cons]
      rw [ih h.2]
      simp [Ne.symm h.1]

theorem count_updateBehaviours (bs : List Behaviour) (b : Behaviour)
    (hnd : (bs.map Behaviour.id).Nodup) (hmem : b ∈ bs) :
    (updateBehaviours bs).count b.id = if b.enabled then 1 else 0 := by
  induction bs with
  | nil => exact absurd hmem (by simp)
  | cons b0 rest ih =>
    simp only [List.map_cons, List.nodup_cons] at hnd
    rcases List.mem_cons.mp hmem with rfl | hmem2
    · have hz : (updateBehaviours rest).count b.id = 0 :=
        count_updateBehaviours_notMem b.id rest hnd.1
      unfold updateBehaviours
      rcases hb : b.enabled with _ | _
      · simpa using hz
      · simp [List.count_cons, hz]
    · have hne : b0.id ≠ b.id := by
        intro he
        exact hnd.1 (he ▸ (List.mem_map.mpr ⟨b, hmem2, rfl⟩))
      unfold updateBehaviours
      rcases hb : b0.enabled with _ | _
      · exact ih hnd.2 hmem2
      · simp only [if_true, List.count_cons]
        rw [ih hnd.2 hmem2]
        simp [hne]

theorem count_pair_map (e ep i : Nat) (l : List Nat) :
    ((l.map (fun j => (ep, j))).count (e, i)) =
      if ep = e then l.count i else 0 := by
  induction l with
  | nil => simp
  | cons a l ih =>
    simp only [List.map_cons, List.count_cons, ih]
    by_cases he : ep = e <;> by_cases ha : a = i <;>
      simp [he, ha, Prod.ext_iff]

theorem count_behaviourPass_zero (e i : Nat)
    (reg : List (Nat × List Behaviour)) (h : e ∉ reg.map Prod.fst) :
    (behaviourPass reg).count (e, i) = 0 := by
  induction reg with
  | nil => rfl
  | cons eb rest ih =>
    simp only [List.map_cons, List.mem_cons] at h
    push_neg at h
    unfold behaviourPass
    rw [List.count_append]
    have h1 := count_pair_map e eb.1 i (updateBehaviours eb.2)
    rw [if_neg (Ne.symm h.1)] at h1
    rw [h1, ih h.2]

/-- **C6** — In the behaviour pass of a frame, for every entity carrying a
`BehaviourBinding` (entities distinct, script objects distinct), each
attached behaviour's `Update` is called exactly once when its `Enabled`
flag is true and zero times when it is false. -/
theorem behaviour_update_iff_enabled (reg : List (Nat × List Behaviour))
    (e : Nat) (bs : List Behaviour) (b : Behaviour)
    (hent : (reg.map Prod.fst).Nodup)
    (hmem : (e, bs) ∈ reg)
    (hids : (bs.map Behaviour.id).Nodup)
    (hb : b ∈ bs) :
    (behaviourPass reg).count (e, b.id) = if b.enabled then 1 else 0 := by
  induction reg with
  | nil => exact absurd hmem (by simp)
  | cons eb rest ih =>
    simp only [List.map_cons, List.nodup_cons] at hent
    unfold behaviourPass
    rw [List.count_append]
    rcases List.mem_cons.mp hmem with rfl | hmem2
    · have h1 := count_pair_map e e b.id (updateBehaviours bs)
      rw [if_pos rfl] at h1
      rw [h1, count_updateBehaviours bs b hids hb,
        count_behaviourPass_zero e b.id rest hent.1]
      simp
    · have hne : eb.1 ≠ e := by
        intro he
        exact hent.1 (he ▸ (List.mem_map.mpr ⟨(e, bs), hmem2, by simp [he]⟩))
      have h1 := count_pair_map e eb.1 b.id (updateBehaviours eb.2)
      rw [if_neg hne] at h1
      rw [h1, ih hent.2 hmem2]
      simp

/-- **C6 witness** — a concrete binding with one enabled and one disabled
script: the disabled one is never updated. -/
theorem behaviour_update_iff_enabled_witness :
    (behaviourPass [(3, [⟨true, 10⟩, ⟨false, 11⟩])]).count (3, 11) = 0 := by
  have h := behaviour_update_iff_enabled [(3, [⟨true, 10⟩, ⟨false, 11⟩])]
    3 [⟨true, 10⟩, ⟨false, 11⟩] ⟨false, 11⟩
    (by decide) (by decide) (by decide) (by decide)
  simpa using h

/-- The outcomes of the external initialization calls that `main` makes:
`glfwInit()` (main.cpp:95), `glfwCreateWindow(800, 800, ...)`
(main.cpp:105) and `gladLoadGLLoader(...)` (main.cpp:118).  They are
inputs of the model because they are host-framework calls. -/
structure InitEnv where
  glfwInitOk : Bool
  windowCreateOk : Bool
  gladLoadOk : Bool
deriving DecidableEq, Repr

/-- Observable top-level actions of `main` before/around the game loop. -/
inductive ProgEvent
  | logError (msg : String)
  | enterGameLoop
deriving DecidableEq, Repr

/-- `InitGLFW` (main.cpp:94-115): returns false (after `LOG_ERROR`) only
when `glfwInit()` fails; the result of `glfwCreateWindow` is NOT checked —
the function returns true whether or not window creation succeeded. -/
def initGLFW (env : InitEnv) : List ProgEvent × Bool :=
  if env.glfwInitOk = false then
    ([.logError "Failed to initialize GLFW"], false)
  else
    ([], true)

/-- `InitGLAD` (main.cpp:117-123): false (after `LOG_ERROR`) iff
`gladLoadGLLoader` returned 0. -/
def initGLAD (env : InitEnv) : List ProgEvent × Bool :=
  if env.gladLoadOk = false then
    ([.logError "Failed to initialize Glad"], false)
  else
    ([], true)

/-- The control flow of `main` (main.cpp:222-876): return 1 if `InitGLFW`
fails, return 1 if `InitGLAD` fails, otherwise run the game loop and
return 0. -/
def mainProgram (env : InitEnv) : List ProgEvent × Int :=
  let g := initGLFW env
  if g.2 = false then (g.1, 1)
  else
    let d := initGLAD env
    if d.2 = false then (g.1 ++ d.1, 1)
    else (g.1 ++ d.1 ++ [.enterGameLoop], 0)

/-- **C7 counterexample** — the claim includes window-creation failure
among the aborting initialization failures, but `InitGLFW` never checks
`glfwCreateWindow`'s result: in an environment where only window creation
fails, `main` logs nothing, enters the game loop and returns 0. -/
theorem mainProgram_windowFail_counterexample :
    (InitEnv.mk true false true).windowCreateOk = false ∧
    mainProgram ⟨true, false, true⟩ = ([ProgEvent.enterGameLoop], 0) :=
  ⟨rfl, rfl⟩

/-- **C7 (amended)** — If `glfwInit` fails, `main` logs an error and
returns 1 without entering the game loop; if `glfwInit` succeeds and the
GLAD loader fails, `main` logs an error and returns 1 without entering the
game loop; if both succeed the program runs the game loop and returns 0.
(Window-creation failure is not itself checked.) -/
theorem mainProgram_init_error_handling (env : InitEnv) :
    (env.glfwInitOk = false →
      mainProgram env = ([.logError "Failed to initialize GLFW"], 1)) ∧
    (env.glfwInitOk = true → env.gladLoadOk = false →
      mainProgram env = ([.logError "Failed to initialize Glad"], 1)) ∧
    (env.glfwInitOk = true → env.gladLoadOk = true →
      mainProgram env = ([.enterGameLoop], 0)) ∧
    ((mainProgram env).2 ≠ 0 → ProgEvent.enterGameLoop ∉ (mainProgram env).1) := by
  rcases env with ⟨g, w, d⟩
  rcases g with _ | _ <;> rcases w with _ | _ <;> rcases d with _ | _ <;>
    refine ⟨fun h1 => ?_, fun h1 h2 => ?_, fun h1 h2 => ?_, fun h1 => ?_⟩ <;>
      first
        | rfl
        | (exact absurd h1 (by decide))
        | (exact absurd h2 (by decide))
        | decide

/-- **C7 witness** — the amended behaviour evaluated when `glfwInit`
fails. -/
theorem mainProgram_init_error_handling_witness :
    mainProgram ⟨false, true, true⟩ =
      ([.logError "Failed to initialize GLFW"], 1) :=
  (mainProgram_init_error_handling ⟨false, true, true⟩).1 rfl

/-- The window-related state the program can observe: how many windows it
created, the window's current size, the GL viewport, and the sizes the
scene's cameras were resized to.  The window size itself is owned by the
host windowing system: the program never sets it after creation, but it
also does nothing to freeze it (no `GLFW_RESIZABLE` hint is given in
main.cpp:100-105, and a size callback is registered at main.cpp:109), so a
window-system resize event is a possible input. -/
structure AppWindowState where
  windowsCreated : Nat
  winSize : Int × Int
  viewport : Int × Int
  cameraSizes : List (Int × Int)
deriving DecidableEq, Repr

/-- `GlfwWindowResizedCallback` (main.cpp:87-92): set the GL viewport to
the new size and call `ResizeWindow` on every camera in the active scene.
It does not reject the new size or restore the old one. -/
def glfwWindowResizedCallback (s : AppWindowState) (width height : Int) :
    AppWindowState :=
  { s with viewport := (width, height),
           cameraSizes := s.cameraSizes.map (fun _ => (width, height)) }

/-- A window-system resize event: the host system gives the window its new
size (the program created it without fixing resizability) and invokes the
registered size callback. -/
def applyResizeEvent (s : AppWindowState) (e : Int × Int) : AppWindowState :=
  glfwWindowResizedCallback { s with winSize := e } e.1 e.2

/-- The single `glfwCreateWindow(800, 800, "INFR1350U", nullptr, nullptr)`
call of `InitGLFW` (main.cpp:105), with the scene's one camera. -/
def initWindow : AppWindowState :=
  ⟨1, (800, 800), (800, 800), [(800, 800)]⟩

/-- The window state after startup followed by a sequence of
window-system resize events. -/
def runResizeEvents (evs : List (Int × Int)) : AppWindowState :=
  evs.foldl applyResizeEvent initWindow

/-- **C8 counterexample** — the window's size is not fixed for the
lifetime of the program: the program creates the window without a
`GLFW_RESIZABLE` hint and installs a resize callback, so after a
window-system resize event to 640x480 the window size is 640x480, not
800x800. -/
theorem window_not_fixed_counterexample :
    (runResizeEvents [(640, 480)]).winSize = (640, 480) ∧
    (runResizeEvents [(640, 480)]).winSize ≠ (800, 800) ∧
    (runResizeEvents [(640, 480)]).windowsCreated = 1 :=
  ⟨rfl, by decide, rfl⟩

theorem runResizeEvents_winSize (evs : List (Int × Int)) :
    (runResizeEvents evs).winSize = evs.getLast?.getD (800, 800) ∧
    (runResizeEvents evs).windowsCreated = 1 ∧
    (runResizeEvents evs).viewport = (runResizeEvents evs).winSize := by
  have key : ∀ (l : List (Int × Int)) (s : AppWindowState),
      ((l.foldl applyResizeEvent s).winSize = l.getLast?.getD s.winSize) ∧
      ((l.foldl applyResizeEvent s).windowsCreated = s.windowsCreated) ∧
      (l ≠ [] → (l.foldl applyResizeEvent s).viewport =
        (l.foldl applyResizeEvent s).winSize) := by
    intro l
    induction l with
    | nil => intro s; exact ⟨rfl, rfl, fun hc => absurd rfl hc⟩
    | cons e l ih =>
      intro s
      have h := ih (applyResizeEvent s e)
      refine ⟨?_, h.2.1, fun _ => ?_⟩
      · rw [List.foldl_cons, h.1]
        rcases l with _ | ⟨e2, l2⟩
        · rfl
        · obtain ⟨y, hy⟩ := Option.isSome_iff_exists.mp
            (List.getLast?_isSome.mpr (by simp : (e2 :: l2) ≠ ([] : List (Int × Int))))
          rw [List.getLast?_cons_cons, hy]
          rfl
      · rw [List.foldl_cons]
        rcases l with _ | ⟨e2, l2⟩
        · simp [List.foldl, applyResizeEvent, glfwWindowResizedCallback]
        · exact h.2.2 (by simp)
  have h := key evs initWindow
  refine ⟨h.1, h.2.1, ?_⟩
  rcases evs with _ | ⟨e, l⟩
  · rfl
  · exact h.2.2 (by simp)

/-- **C8 (amended)** — The program creates exactly one window, once at
startup, with width 800 and height 800; it never resizes the window
itself, but the size is not fixed: after any sequence of window-system
resize events the window size is the last event's size (800x800 only if
none occurred), the viewport tracks it, and every camera is resized to
the window's current size. -/
theorem window_created_once_800 :
    initWindow.winSize = (800, 800) ∧
    initWindow.windowsCreated = 1 ∧
    (∀ evs : List (Int × Int),
      (runResizeEvents evs).windowsCreated = 1 ∧
      (runResizeEvents evs).winSize = evs.getLast?.getD (800, 800) ∧
      (runResizeEvents evs).viewport = (runResizeEvents evs).winSize) := by
  refine ⟨rfl, rfl, fun evs => ?_⟩
  have h := runResizeEvents_winSize evs
  exact ⟨h.2.1, h.1, h.2.2⟩

/-- `float fpsBuffer[128]` (main.cpp:234). -/
def fpsBufferLength : Nat := 128

/-- The `frameIx` update of the FPS tracker (main.cpp:779-782): after
writing `fpsBuffer[frameIx]`, `frameIx++`, then reset to 0 once it reaches
128.  `frameIx` is a C++ `int`, modelled as `Int`. -/
def frameIxStep (ix : Int) : Int :=
  if ix + 1 ≥ 128 then 0 else ix + 1

/-- The value of `frameIx` at the top of loop iteration `n`, i.e. the
index used by the n-th write `fpsBuffer[frameIx] = ...`;
`int frameIx = 0` at main.cpp:233. -/
def frameIxAt : Nat → Int
  | 0 => 0
  | n + 1 => frameIxStep (frameIxAt n)

/-- **C9** — At every loop iteration the index `frameIx` used to write
`fpsBuffer[frameIx]` satisfies `0 ≤ frameIx < 128`, so every write to the
128-element `fpsBuffer` is in bounds. -/
theorem frameIx_in_bounds (n : Nat) :
    0 ≤ frameIxAt n ∧ frameIxAt n < (fpsBufferLength : Int) := by
  unfold fpsBufferLength
  induction n with
  | zero =>
    refine ⟨le_refl 0, ?_⟩
    show (0 : Int) < 128
    norm_num
  | succ m ih =>
    have hstep : frameIxAt (m + 1) = frameIxStep (frameIxAt m) := rfl
    rw [hstep]
    unfold frameIxStep
    split_ifs with hc <;> constructor <;> omega

/-- **C9 witness** — the bound at a concrete iteration count past one
wrap-around. -/
theorem frameIx_in_bounds_witness :
    0 ≤ frameIxAt 130 ∧ frameIxAt 130 < (fpsBufferLength : Int) :=
  frameIx_in_bounds 130

/-- The `GLFW_KEY_KP_ADD` toggle (main.cpp:741-747): `selectedVao++`, then
wrap to 0 when it reaches `controllables.size()` (`n`).  `selectedVao` is
a C++ `int` (main.cpp:236); under the in-range invariant proved below the
source's `int` >= `size_t` comparison agrees with the mathematical one
because the left side is non-negative. -/
def keypadAdd (n : Nat) (s : Int) : Int :=
  if s + 1 ≥ n then 0 else s + 1

/-- The `GLFW_KEY_KP_SUBTRACT` toggle (main.cpp:748-754): `selectedVao--`,
then wrap to `controllables.size() - 1` when it drops below 0. -/
def keypadSubtract (n : Nat) (s : Int) : Int :=
  if s - 1 < 0 then (n : Int) - 1 else s - 1

/-- A keypad toggle firing. -/
inductive KeyOp
  | add
  | subtract
deriving DecidableEq, Repr

def applyKeyOp (n : Nat) (s : Int) : KeyOp → Int
  | .add => keypadAdd n s
  | .subtract => keypadSubtract n s

/-- `selectedVao` after a sequence of keypad toggles, starting from
`int selectedVao = 0` (main.cpp:236), with `n` controllables (the scene
pushes two: `objDunce`, `objDuncet`, main.cpp:738-739). -/
def selectedVaoAfter (n : Nat) (ops : List KeyOp) : Int :=
  ops.foldl (applyKeyOp n) 0

/-- **C10** — With a non-empty controllables list of size `n`, both keypad
toggles keep `selectedVao` inside `[0, n)`: incrementing past the last
entry wraps to 0, decrementing below 0 wraps to the last entry, and after
any sequence of toggles from the initial 0 the selection index is still in
`[0, n)`, so every `controllables[selectedVao]` access is in bounds. -/
theorem selectedVao_in_bounds (n : Nat) (hn : 1 ≤ n) :
    (∀ s : Int, 0 ≤ s → s < n →
      (0 ≤ keypadAdd n s ∧ keypadAdd n s < n) ∧
      (0 ≤ keypadSubtract n s ∧ keypadSubtract n s < n)) ∧
    (keypadAdd n ((n : Int) - 1) = 0 ∧ keypadSubtract n 0 = (n : Int) - 1) ∧
    (∀ ops : List KeyOp,
      0 ≤ selectedVaoAfter n ops ∧ selectedVaoAfter n ops < n) := by
  have hstep : ∀ s : Int, 0 ≤ s → s < n →
      (0 ≤ keypadAdd n s ∧ keypadAdd n s < n) ∧
      (0 ≤ keypadSubtract n s ∧ keypadSubtract n s < n) := by
    intro s h0 h1
    unfold keypadAdd keypadSubtract
    constructor
    · split_ifs with hc <;> constructor <;> omega
    · split_ifs with hc <;> constructor <;> omega
  refine ⟨hstep, ⟨?_, ?_⟩, ?_⟩
  · unfold keypadAdd
    split_ifs with hc <;> omega
  · unfold keypadSubtract
    split_ifs with hc <;> omega
  · have hfold : ∀ (ops : List KeyOp) (s : Int), 0 ≤ s → s < n →
        0 ≤ ops.foldl (applyKeyOp n) s ∧ ops.foldl (applyKeyOp n) s < n := by
      intro ops
      induction ops with
      | nil => intro s h0 h1; exact ⟨h0, h1⟩
      | cons op rest ih =>
        intro s h0 h1
        rw [List.foldl_cons]
        rcases op with _ | _
        · exact ih _ ((hstep s h0 h1).1).1 ((hstep s h0 h1).1).2
        · exact ih _ ((hstep s h0 h1).2).1 ((hstep s h0 h1).2).2
    intro ops
    exact hfold ops 0 le_rfl (by exact_mod_cast hn)

/-- **C10 witness** — the bound with the scene's two controllables after a
decrement from 0 (which wraps to the last entry). -/
theorem selectedVao_in_bounds_witness :
    1 ≤ 2 ∧
    (0 ≤ selectedVaoAfter 2 [KeyOp.subtract] ∧
      selectedVaoAfter 2 [KeyOp.subtract] < (2 : Nat)) :=
  ⟨by decide, (selectedVao_in_bounds 2 (by decide)).2.2 [KeyOp.subtract]⟩

end CGA1
